import Mathlib

/-!
Shallow embedding of the repository `alx-backend-storage` (directory
`0x02-redis_basic`): the file `exercise.py` (a Redis-backed `Cache` class with
call-counting, call-history and replay decorators) and the file `web.py` (an
in-memory page cache with an expiration decorator).

Modelling conventions:
* Redis byte strings (and Python `bytes`) are modelled as Lean `String`
  (payloads of interest are UTF-8 text, and `decode("utf-8")` is the identity
  on the model).
* The single Redis keyspace of `exercise.py` is modelled by a record with one
  field per kind of key actually used: the data strings written by `store`
  (field `kv`), the `INCR` counter under the key `Cache.store` (field
  `countStore`), and the two lists `Cache.store:inputs` / `Cache.store:outputs`
  (fields `inputs` and `outputs`).  These key families are pairwise disjoint in
  the source (UUID keys vs the qualified method name and its `:inputs` /
  `:outputs` suffixes).
* `str(uuid.uuid4())` is modelled by a deterministic injective stream of fresh
  identifiers indexed by a `nextId` counter carried in the state.
* A call into Redis that raises (`StoreUnavailable`) is modelled by a boolean
  parameter on the operation that may fail; Python in-place mutations performed
  before the raise persist, which the model reflects by returning the state
  reached so far.
-/

/-- The closed set of value types accepted by `Cache.store`
(`Union[str, bytes, int, float]`).  A float is carried by its Python `repr`
string, which is also exactly what the Redis client sends on the wire. -/
inductive Value where
  | vstr (s : String)
  | vbytes (b : String)
  | vint (n : Int)
  | vfloat (r : String)
deriving DecidableEq

/-- How the Redis client encodes each permitted payload type to bytes before
storing: text is UTF-8 encoded (identity on the model), bytes pass through,
ints and floats are sent as their decimal representation. -/
def Value.encode : Value → String
  | .vstr s => s
  | .vbytes b => b
  | .vint n => toString n
  | .vfloat r => r

/-- The ASCII apostrophe character, used by Python `repr` to quote strings. -/
def pyQuote : String := (Char.ofNat 39).toString

/-- Python `repr` of a stored value (as it appears inside `str(args)`). -/
def Value.pyRepr : Value → String
  | .vstr s => pyQuote ++ s ++ pyQuote
  | .vbytes b => "b" ++ pyQuote ++ b ++ pyQuote
  | .vint n => toString n
  | .vfloat r => r

/-- `str(args)` for the one-element positional argument tuple `(data,)` that
`Cache.store` receives: `"(" + repr(data) + ",)"`. -/
def strArgs (v : Value) : String := "(" ++ v.pyRepr ++ ",)"

/-- Python `==` between the object returned by `Cache.get` without a decode
function (bytes, or `None` for a missing key) and an original stored value:
in Python 3, `bytes` compares equal only to equal `bytes` (never to `str`,
`int` or `float`), and `None` equals none of the permitted value types. -/
def pyEqB : Option String → Value → Bool
  | some b, .vbytes b2 => b == b2
  | some _, _ => false
  | none, _ => false

/-- The deterministic fresh-identifier stream modelling `str(uuid.uuid4())`. -/
def genKey (n : Nat) : String := "uuid-" ++ toString n

/-- The Redis state visible to the `Cache` class of `exercise.py`. -/
structure CState where
  kv : String → Option String
  countStore : Nat
  inputs : List String
  outputs : List String
  nextId : Nat

/-- Updating one key of the string keyspace (`redis.set`, dict write). -/
def kvSet (f : String → Option String) (k v : String) : String → Option String :=
  fun k2 => if k2 = k then some v else f k2

/-- `Cache.__init__`: a fresh client whose database has been `flushdb`-ed. -/
def Cache.init : CState :=
  { kv := fun _ => none, countStore := 0, inputs := [], outputs := [], nextId := 0 }

/-- The decorated `Cache.store` (i.e. `count_calls (call_history store)`),
one call.  `writeOk` tells whether the underlying `redis.set` inside the inner
method succeeds; when it raises, the exception propagates (result `none`) but
the `INCR` performed by `count_calls` and the `RPUSH` to `:inputs` performed by
`call_history` before the inner call have already happened, while the `RPUSH`
to `:outputs` (which follows the inner call) does not happen.  The returned key
is a string, so the `str(result)` pushed to `:outputs` is the key itself. -/
def Cache.store (st : CState) (v : Value) (writeOk : Bool) : CState × Option String :=
  let st1 := { st with countStore := st.countStore + 1 }
  let st2 := { st1 with inputs := st1.inputs ++ [strArgs v] }
  if writeOk then
    let key := genKey st2.nextId
    let st3 := { st2 with kv := kvSet st2.kv key v.encode, nextId := st2.nextId + 1 }
    let st4 := { st3 with outputs := st3.outputs ++ [key] }
    (st4, some key)
  else
    (st2, none)

/-- `Cache.get` with `fn = None`: `value = self._redis.get(key); return value`
(the raw payload, or the absent sentinel `None`). -/
def Cache.getRaw (st : CState) (key : String) : Option String :=
  st.kv key

/-- `Cache.get` with a decode function supplied: `return fn(value)` — the
function is applied to the retrieved value even when that value is the absent
sentinel `None`.  A decode function is a Python callable, so it may raise. -/
inductive PyError where
  | typeError
  | valueError
deriving DecidableEq

def Cache.getFn {α : Type} (st : CState) (key : String)
    (fn : Option String → Except PyError α) : Except PyError α :=
  fn (st.kv key)

/-- Value of a non-empty all-digit character list, read in base 10. -/
def digitsVal (cs : List Char) : Option Nat :=
  if cs ≠ [] ∧ cs.all Char.isDigit then
    some (cs.foldl (fun a c => a * 10 + (c.toNat - 48)) 0)
  else none

/-- Python `int(x)` applied to the object retrieved from Redis: `int(None)`
raises `TypeError`; `int(b)` on bytes parses an optionally signed decimal
integer with surrounding whitespace allowed, raising `ValueError` (the spec's
`DecodeError`) when the payload is not a valid integer representation. -/
def parsePyInt (s : String) : Option Int :=
  let t := (((s.toList.dropWhile Char.isWhitespace).reverse.dropWhile
    Char.isWhitespace).reverse)
  match t with
  | c :: rest =>
    if c = Char.ofNat 45 then (digitsVal rest).map (fun n => -(n : Int))
    else if c = Char.ofNat 43 then (digitsVal rest).map (fun n => (n : Int))
    else (digitsVal t).map (fun n => (n : Int))
  | [] => none

def pyInt : Option String → Except PyError Int
  | none => .error .typeError
  | some s =>
    match parsePyInt s with
    | some n => .ok n
    | none => .error .valueError

/-- `Cache.get_int`: `return self.get(key, int)`. -/
def Cache.getInt (st : CState) (key : String) : Except PyError Int :=
  Cache.getFn st key pyInt

/-- `Cache.get_str`: `value = self._redis.get(key);
return value.decode("utf-8") if value else None`.  The truthiness test makes
both a missing key (`None`) and an empty payload (`b""`) take the `None`
branch; `decode` is the identity on the model. -/
def Cache.getStr (st : CState) (key : String) : Option String :=
  match st.kv key with
  | none => none
  | some v => if v = "" then none else some v

/-- A sequence of `Cache.store` calls (value and whether the inner Redis write
succeeds), threading the state. -/
def runStores (st : CState) : List (Value × Bool) → CState
  | [] => st
  | (v, ok) :: rest => runStores (Cache.store st v ok).1 rest

/-- A sequence of successful `Cache.store` calls, also collecting the returned
keys in call order. -/
def runStoresOk (st : CState) : List Value → CState × List String
  | [] => (st, [])
  | v :: rest =>
    let r := Cache.store st v true
    let rr := runStoresOk r.1 rest
    (rr.1, r.2.getD "" :: rr.2)

/-- `replay(func)`: reads the full `:inputs` and `:outputs` lists, prints a
header `"<name> was called <n> <time|times>:"` with `n = len(inputs)`, then
one line per pair produced by `zip(inputs, outputs)`, each formatted as
`"<name>(*<input>) -> <output>"` (both entries decoded from bytes, identity on
the model).  The model returns the printed lines in order. -/
def replay (methodName : String) (inp outp : List String) : List String :=
  let callsNumber := inp.length
  let timesWord := if callsNumber != 1 then "times" else "time"
  (methodName ++ " was called " ++ toString callsNumber ++ " " ++ timesWord ++ ":")
    :: (inp.zip outp).map (fun p => methodName ++ "(*" ++ p.1 ++ ") -> " ++ p.2)

/-!
Embedding of `web.py`.  The module keeps one in-memory dict `cache` holding two
disjoint key namespaces: the bare URL maps to the fetched page content (written
by `get_page`), and the key `"count:" ++ url` maps to a pair
`(count, timestamp)` (written by the `cache_with_expiration` wrapper).  The
model splits the dict into the two fields `pages` and `counts`; no URL of
interest starts with `"count:"`.  `time.time()` is supplied to each call as an
explicit rational `now` (the expired branch of the wrapper calls `time.time()`
twice in quick succession; both reads are modelled by the same `now`).  The
network collaborator `requests.get(url).text` is an explicit function
`fetch : String → Option String`, `none` meaning the request raised; each
operation also reports whether it actually performed a web request, so that
the number of `rawFetch` invocations is observable. -/

structure WebState where
  pages : String → Option String
  counts : String → Option (Nat × ℚ)

def WebState.empty : WebState :=
  { pages := fun _ => none, counts := fun _ => none }

/-- A `web.py` call either raises the network error from `requests.get`
(propagated unchanged) or the `KeyError` from reading a missing `cache[url]`
in the wrapper's hit branch. -/
inductive WebErr where
  | fetchFailed
  | keyError
deriving DecidableEq

/-- `get_page(url)`: returns `cache[url]` when present (no web request),
otherwise performs the request, writes the result under `cache[url]`, and
returns it.  The returned `Bool` records whether a web request was made.
The state is returned in every case because dict writes performed before an
exception persist (here none precede the request). -/
def getPage (fetch : String → Option String) (st : WebState) (url : String) :
    WebState × Except WebErr (String × Bool) :=
  match st.pages url with
  | some c => (st, .ok (c, false))
  | none =>
    match fetch url with
    | some body =>
      ({ st with pages := kvSet st.pages url body }, .ok (body, true))
    | none => (st, .error .fetchFailed)

/-- `cache_with_expiration(expiration)` applied to `get_page` — the composed
`fetchPage` operation of the spec.  Mirrors the wrapper body: look up
`cache["count:" ++ url]`; if present and `now - timestamp > expiration`, call
the wrapped function and store `(count + 1, now)`; if present and not expired,
store `(count + 1, timestamp)` and return `cache[url]`; if absent, call the
wrapped function and store `(1, now)`. -/
def fetchPage (expiration : ℚ) (fetch : String → Option String) (now : ℚ)
    (st : WebState) (url : String) : WebState × Except WebErr (String × Bool) :=
  match st.counts url with
  | some (count, timestamp) =>
    if expiration < now - timestamp then
      match getPage fetch st url with
      | (st2, .ok (result, fetched)) =>
        ({ st2 with counts := fun u => if u = url then some (count + 1, now) else st2.counts u },
          .ok (result, fetched))
      | (st2, .error e) => (st2, .error e)
    else
      let st2 : WebState :=
        { st with counts := fun u => if u = url then some (count + 1, timestamp) else st.counts u }
      match st.pages url with
      | some c => (st2, .ok (c, false))
      | none => (st2, .error .keyError)
  | none =>
    match getPage fetch st url with
    | (st2, .ok (result, fetched)) =>
      ({ st2 with counts := fun u => if u = url then some (1, now) else st2.counts u },
        .ok (result, fetched))
    | (st2, .error e) => (st2, .error e)

/-- The Access Counter for a URL as an integer (0 when the key is absent). -/
def accessCount (st : WebState) (url : String) : Nat :=
  match st.counts url with
  | some (k, _) => k
  | none => 0

/-- A sequence of `fetchPage` calls for one URL at the given times, threading
the state (results discarded, as only the state is needed). -/
def runFetchPages (expiration : ℚ) (fetch : String → Option String) (url : String)
    (st : WebState) : List ℚ → WebState
  | [] => st
  | now :: rest =>
    runFetchPages expiration fetch url (fetchPage expiration fetch now st url).1 rest

/-! Helper lemmas about `Cache.store` and its iterations. -/

lemma store_countStore (st : CState) (v : Value) (ok : Bool) :
    ((Cache.store st v ok).1).countStore = st.countStore + 1 := by
  cases ok <;> rfl

lemma runStores_countStore : ∀ (L : List (Value × Bool)) (st : CState),
    (runStores st L).countStore = st.countStore + L.length := by
  intro L
  induction L with
  | nil => intro st; rfl
  | cons p rest ih =>
    intro st
    obtain ⟨v, ok⟩ := p
    simp only [runStores, ih, store_countStore, List.length_cons]
    omega

lemma store_ok_fields (st : CState) (v : Value) :
    (Cache.store st v true).2 = some (genKey st.nextId) ∧
    (Cache.store st v true).1.inputs = st.inputs ++ [strArgs v] ∧
    (Cache.store st v true).1.outputs = st.outputs ++ [genKey st.nextId] ∧
    (Cache.store st v true).1.kv = kvSet st.kv (genKey st.nextId) v.encode := by
  refine ⟨rfl, rfl, rfl, rfl⟩

lemma runStoresOk_fields : ∀ (vs : List Value) (st : CState),
    (runStoresOk st vs).1.inputs = st.inputs ++ vs.map strArgs ∧
    (runStoresOk st vs).1.outputs = st.outputs ++ (runStoresOk st vs).2 ∧
    (runStoresOk st vs).2.length = vs.length := by
  intro vs
  induction vs with
  | nil => intro st; simp [runStoresOk]
  | cons v rest ih =>
    intro st
    simp only [runStoresOk]
    obtain ⟨h1, h2, h3⟩ := ih (Cache.store st v true).1
    obtain ⟨g1, g2, g3, _⟩ := store_ok_fields st v
    refine ⟨?_, ?_, ?_⟩
    · rw [h1, g2]; simp
    · rw [h2, g3, g1]; simp
    · simp [h3]

/-- C4: the Call Counter (`INCR Cache.store` performed by `count_calls`) is
incremented by exactly one before each delegation to the wrapped method,
unconditionally even when the inner Redis write fails; hence after any
sequence of `n` calls from a fresh store the counter equals `n`, and it is
monotonically non-decreasing over any call sequence. -/
theorem count_calls_spec :
    (∀ (st : CState) (v : Value) (ok : Bool),
      ((Cache.store st v ok).1).countStore = st.countStore + 1) ∧
    (∀ L : List (Value × Bool), (runStores Cache.init L).countStore = L.length) ∧
    (∀ (st : CState) (L : List (Value × Bool)),
      st.countStore ≤ (runStores st L).countStore) := by
  refine ⟨store_countStore, ?_, ?_⟩
  · intro L; simp [runStores_countStore, Cache.init]
  · intro st L; rw [runStores_countStore]; omega

/-- C5: after `n` successful `store` calls from a fresh store, the `:inputs`
and `:outputs` history lists both have length `n`; `inputs` is exactly the
list of `str(args)` representations of the successive calls' arguments, and
`outputs` is exactly the list of the successive calls' return values (their
`str` image — the returned keys), in call order. -/
theorem call_history_spec (vs : List Value) :
    (runStoresOk Cache.init vs).1.inputs.length = vs.length ∧
    (runStoresOk Cache.init vs).1.outputs.length = vs.length ∧
    (runStoresOk Cache.init vs).1.inputs = vs.map strArgs ∧
    (runStoresOk Cache.init vs).1.outputs = (runStoresOk Cache.init vs).2 := by
  obtain ⟨h1, h2, h3⟩ := runStoresOk_fields vs Cache.init
  rw [show Cache.init.inputs = [] from rfl, List.nil_append] at h1
  rw [show Cache.init.outputs = [] from rfl, List.nil_append] at h2
  exact ⟨by rw [h1]; simp, by rw [h2, h3], h1, h2⟩

/-- C2 (counterexample): storing the integer `42` and reading the returned key
back with `get` and no decode function does not give a value equal to `42`:
the store hands back the byte payload `b"42"`, and in Python `b"42" == 42` is
`False`. -/
theorem store_get_roundtrip_counterexample :
    pyEqB
      (Cache.getRaw (Cache.store Cache.init (.vint 42) true).1
        ((Cache.store Cache.init (.vint 42) true).2.getD ""))
      (.vint 42) = false := by
  decide

/-- C2 (amended): `store v` returns a fresh key under which the byte encoding
of `v` is stored; `get` without a decode function returns exactly that byte
payload, and the payload compares equal (as a Python value) to `v` precisely
when `v` was itself a bytes value. -/
theorem store_get_returns_encoding (st : CState) (v : Value) :
    (Cache.store st v true).2 = some (genKey st.nextId) ∧
    Cache.getRaw (Cache.store st v true).1 (genKey st.nextId) = some v.encode ∧
    (pyEqB (some v.encode) v = true ↔ ∃ b, v = .vbytes b) := by
  refine ⟨rfl, ?_, ?_⟩
  · simp [Cache.store, Cache.getRaw, kvSet]
  · cases v <;> simp [pyEqB, Value.encode]

/-- C7: `get_str` on a key absent from the store returns the explicit absent
value `None`; the function is total on the model, so no exception is raised
for a missing key. -/
theorem get_str_missing_none (st : CState) (key : String) (h : st.kv key = none) :
    Cache.getStr st key = none := by
  simp [Cache.getStr, h]

theorem get_str_missing_none_witness :
    Cache.init.kv "absent" = none ∧ Cache.getStr Cache.init "absent" = none :=
  ⟨rfl, get_str_missing_none Cache.init "absent" rfl⟩

/-- C9: when the payload stored under a key is the empty byte string, the
truthiness test in `get_str` sends it to the `None` branch, so `get_str`
returns the absent sentinel rather than the empty string — indistinguishable,
through `get_str`, from a missing key. -/
theorem get_str_empty_none (st : CState) (key : String) (h : st.kv key = some "") :
    Cache.getStr st key = none := by
  simp [Cache.getStr, h]

theorem get_str_empty_none_witness :
    ({ Cache.init with kv := kvSet Cache.init.kv "k" "" } : CState).kv "k" = some "" ∧
    Cache.getStr { Cache.init with kv := kvSet Cache.init.kv "k" "" } "k" = none :=
  ⟨by simp [kvSet], get_str_empty_none _ "k" (by simp [kvSet])⟩

/-- C8: when the payload stored under a key is not a valid integer
representation, `get_int` fails with the decode-conversion failure (Python's
`ValueError` from `int(...)`, the spec's `DecodeError`) instead of returning a
value. -/
theorem get_int_decode_error (st : CState) (key s : String)
    (hk : st.kv key = some s) (hs : parsePyInt s = none) :
    Cache.getInt st key = .error .valueError := by
  simp [Cache.getInt, Cache.getFn, hk, pyInt, hs]

theorem get_int_decode_error_witness :
    (({ Cache.init with kv := kvSet Cache.init.kv "k" "abc" } : CState).kv "k" = some "abc" ∧
      parsePyInt "abc" = none) ∧
    Cache.getInt { Cache.init with kv := kvSet Cache.init.kv "k" "abc" } "k" =
      .error .valueError :=
  ⟨⟨by simp [kvSet], by decide⟩,
    get_int_decode_error _ "k" "abc" (by simp [kvSet]) (by decide)⟩

/-- C10: `get` with a decode function applies the function to the retrieved
value even when the key is absent, i.e. to the sentinel `None` itself, instead
of returning the sentinel unchanged; in particular `get_int` on a missing key
fails with the type-conversion error of `int(None)` (`TypeError`), not with an
absent value, `NotFound`, or the decode failure `ValueError`. -/
theorem get_missing_applies_fn (st : CState) (key : String) (h : st.kv key = none) :
    (∀ (α : Type) (fn : Option String → Except PyError α), Cache.getFn st key fn = fn none) ∧
    Cache.getInt st key = .error .typeError := by
  constructor
  · intro α fn; simp [Cache.getFn, h]
  · simp [Cache.getInt, Cache.getFn, h, pyInt]

theorem get_missing_applies_fn_witness :
    Cache.init.kv "missing" = none ∧
    ((∀ (α : Type) (fn : Option String → Except PyError α),
        Cache.getFn Cache.init "missing" fn = fn none) ∧
      Cache.getInt Cache.init "missing" = .error .typeError) :=
  ⟨rfl, get_missing_applies_fn Cache.init "missing" rfl⟩

/-! Helper lemma for indexing into a zip of two lists. -/

lemma zip_get_some : ∀ (l1 l2 : List String) (i : Nat), i < l1.length → i < l2.length →
    ∃ a b, l1[i]? = some a ∧ l2[i]? = some b ∧ (l1.zip l2)[i]? = some (a, b) := by
  intro l1
  induction l1 with
  | nil => intro l2 i h1 _; simp at h1
  | cons x xs ih =>
    intro l2 i h1 h2
    cases l2 with
    | nil => simp at h2
    | cons y ys =>
      cases i with
      | zero => exact ⟨x, y, by simp, by simp, by simp⟩
      | succ j =>
        simp only [List.length_cons, Nat.succ_lt_succ_iff] at h1 h2
        obtain ⟨a, b, ha, hb, hz⟩ := ih ys j h1 h2
        exact ⟨a, b, by simpa using ha, by simpa using hb, by simpa [List.zip] using hz⟩

/-- C6: for parallel `inputs`/`outputs` history sequences (the data-model
invariant: equal lengths), `replay` prints the header line stating the method
was called `callsNumber = len(inputs)` times — with the word `time` when the
count is 1 and `times` otherwise — followed by exactly one line per index
`i < callsNumber`, formatted `methodIdentifier(*inputs[i]) -> outputs[i]`. -/
theorem replay_spec (m : String) (inp outp : List String)
    (h : inp.length = outp.length) :
    (replay m inp outp).length = inp.length + 1 ∧
    (replay m inp outp)[0]? =
      some (m ++ " was called " ++ toString inp.length ++ " " ++
        (if inp.length = 1 then "time" else "times") ++ ":") ∧
    ∀ i : Nat, i < inp.length →
      ∃ a b, inp[i]? = some a ∧ outp[i]? = some b ∧
        (replay m inp outp)[i + 1]? = some (m ++ "(*" ++ a ++ ") -> " ++ b) := by
  refine ⟨?_, ?_, ?_⟩
  · simp [replay, List.length_zip, h]
  · simp only [replay, List.getElem?_cons_zero, Option.some.injEq]
    by_cases h1 : inp.length = 1 <;> simp [h1]
  · intro i hi
    obtain ⟨a, b, ha, hb, hz⟩ := zip_get_some inp outp i hi (h ▸ hi)
    refine ⟨a, b, ha, hb, ?_⟩
    simp [replay, hz]

theorem replay_spec_witness :
    (["a"] : List String).length = (["b"] : List String).length ∧
    ((replay "m" ["a"] ["b"]).length = (["a"] : List String).length + 1 ∧
      (replay "m" ["a"] ["b"])[0]? =
        some ("m" ++ " was called " ++ toString (["a"] : List String).length ++ " " ++
          (if (["a"] : List String).length = 1 then "time" else "times") ++ ":") ∧
      ∀ i : Nat, i < (["a"] : List String).length →
        ∃ a b, (["a"] : List String)[i]? = some a ∧ (["b"] : List String)[i]? = some b ∧
          (replay "m" ["a"] ["b"])[i + 1]? = some ("m" ++ "(*" ++ a ++ ") -> " ++ b)) :=
  ⟨rfl, replay_spec "m" ["a"] ["b"] rfl⟩

/-- C1 (code evaluated at the failing input): with TTL 10, the page for `"u"`
is fetched and cached at `t0 = 0` with content `"old"`.  A read at `t = 9`
(before expiry) is a hit returning `"old"` without a web request, as the claim
says.  But a read at `t = 11` (after expiry), with fresh content `"new"`
available from the network, still returns the stale `"old"`, performs no web
request, and leaves `"old"` cached: the expired branch re-calls `get_page`,
whose own unexpiring `cache[url]` check short-circuits the refetch. -/
theorem ttl_expiry_no_refetch :
    (fetchPage 10 (fun _ => some "old") 0 WebState.empty "u").2 = .ok ("old", true) ∧
    (fetchPage 10 (fun _ => some "new") 9
      (fetchPage 10 (fun _ => some "old") 0 WebState.empty "u").1 "u").2 =
        .ok ("old", false) ∧
    (fetchPage 10 (fun _ => some "new") 11
      (fetchPage 10 (fun _ => some "old") 0 WebState.empty "u").1 "u").2 =
        .ok ("old", false) ∧
    (fetchPage 10 (fun _ => some "new") 11
      (fetchPage 10 (fun _ => some "old") 0 WebState.empty "u").1 "u").1.pages "u" =
        some "old" := by
  refine ⟨rfl, ?_, ?_, ?_⟩ <;> norm_num [fetchPage, getPage, WebState.empty, kvSet]

/-- C3 (counterexample): on the very first `fetchPage` call for a URL, when
the network fetch fails, the error propagates and the Access Counter key is
never written: the counter update sits after the cache check and after the
wrapped call, so it is neither unconditional nor performed before the cache
check, and after `n = 1` calls with a failing fetch the counter is absent
(i.e. 0), not 1. -/
theorem access_counter_fetch_failure :
    (fetchPage 10 (fun _ => none) 0 WebState.empty "u").2 = .error .fetchFailed ∧
    (fetchPage 10 (fun _ => none) 0 WebState.empty "u").1.counts "u" = none :=
  ⟨rfl, rfl⟩

/-! Helper lemmas for runs of `fetchPage` on a single URL. -/

lemma fetchPage_step (expiration : ℚ) (fetch : String → Option String) (now : ℚ)
    (st : WebState) (url c : String) (k : Nat) (t : ℚ)
    (hp : st.pages url = some c) (hc : st.counts url = some (k, t)) :
    (fetchPage expiration fetch now st url).1.pages url = some c ∧
    ∃ t2, (fetchPage expiration fetch now st url).1.counts url = some (k + 1, t2) := by
  unfold fetchPage
  rw [hc]
  by_cases hexp : expiration < now - t
  · simp only [if_pos hexp]
    unfold getPage
    rw [hp]
    exact ⟨hp, now, by simp⟩
  · simp only [if_neg hexp]
    rw [hp]
    exact ⟨hp, t, by simp⟩

lemma runFetchPages_count (expiration : ℚ) (fetch : String → Option String)
    (url c : String) :
    ∀ (ts : List ℚ) (st : WebState) (k : Nat) (t : ℚ),
      st.pages url = some c → st.counts url = some (k, t) →
      ∃ t2, (runFetchPages expiration fetch url st ts).counts url =
        some (k + ts.length, t2) := by
  intro ts
  induction ts with
  | nil => intro st k t _ hc; exact ⟨t, by simpa using hc⟩
  | cons now rest ih =>
    intro st k t hp hc
    obtain ⟨hp2, t2, hc2⟩ := fetchPage_step expiration fetch now st url c k t hp hc
    obtain ⟨t3, h3⟩ := ih (fetchPage expiration fetch now st url).1 (k + 1) t2 hp2 hc2
    refine ⟨t3, ?_⟩
    simp only [runFetchPages, h3, List.length_cons]
    congr 2
    omega

lemma fetchPage_first (expiration : ℚ) (fetch : String → Option String) (now : ℚ)
    (st : WebState) (url body : String)
    (hf : fetch url = some body) (hp : st.pages url = none) (hc : st.counts url = none) :
    (fetchPage expiration fetch now st url).1.pages url = some body ∧
    (fetchPage expiration fetch now st url).1.counts url = some (1, now) := by
  unfold fetchPage
  rw [hc]
  unfold getPage
  rw [hp, hf]
  exact ⟨by simp [kvSet], by simp⟩

/-- C3 (amended): the Access Counter update sits after the cache check, and on
a path that calls the wrapped fetch it happens only after the fetch returns;
for every sequence of `n` `fetchPage` calls for one URL, starting from the
empty cache, in which the network fetch succeeds whenever invoked, the Access
Counter for that URL afterwards equals `n`. -/
theorem access_counter_successful_calls (expiration : ℚ)
    (fetch : String → Option String) (url body : String)
    (hf : fetch url = some body) (ts : List ℚ) :
    accessCount (runFetchPages expiration fetch url WebState.empty ts) url =
      ts.length := by
  cases ts with
  | nil => rfl
  | cons now rest =>
    obtain ⟨hp, hc⟩ := fetchPage_first expiration fetch now WebState.empty url body
      hf rfl rfl
    obtain ⟨t2, h2⟩ := runFetchPages_count expiration fetch url body rest
      (fetchPage expiration fetch now WebState.empty url).1 1 now hp hc
    simp only [runFetchPages, accessCount, h2, List.length_cons]
    omega

theorem access_counter_successful_calls_witness :
    (fun _ : String => some "b") "u" = some "b" ∧
    accessCount
      (runFetchPages 10 (fun _ : String => some "b") "u" WebState.empty
        [0, 1, 20]) "u" = ([0, 1, 20] : List ℚ).length :=
  ⟨rfl, access_counter_successful_calls 10 (fun _ => some "b") "u" "b" rfl [0, 1, 20]⟩
